import Mathlib

/-!
Verification development for the seal-sdk-rs threshold decryption client.

The Rust sources are shallowly embedded as executable Lean functions:

* src/crypto.rs : the EncryptedObject data model and the
  seal_decrypt_all_objects share verification and combination routine.
* src/base_client.rs : decrypt_multiple_objects_bytes, fetch_derived_keys,
  fetch_key_server_info and decode_public_key.
* src/session_key.rs : SessionKey::new and signed_message.
* src/http_client.rs : PostResponse::is_success.

External collaborators (the pairing-based IBE and ElGamal primitives from the
seal_crypto and fastcrypto crates, the blockchain lookup, the HTTP transport,
the chrono calendar renderer, bcs and serde codecs, the wallet signer) are
modelled as explicit function parameters, exactly in the places where the
source calls into those crates.  Machine integers (u8, u16, u64 identifiers,
HTTP status codes, thresholds) are modelled as Nat: no arithmetic in the
embedded code paths can overflow their Rust types, as each is either only
compared or produced by a non-wrapping cast.  Rust HashMap values used by the
source are only ever inserted into and looked up by key, never iterated for
their order, so they are embedded as association lists with
overwrite-on-insert semantics.
-/

set_option maxRecDepth 8192

deriving instance DecidableEq for Except

namespace Seal

/-- Overwriting lookup table: Rust HashMap get, embedded on association
lists.  Returns the value of the first pair whose key matches. -/
def alookup {α β : Type} [DecidableEq α] : List (α × β) → α → Option β
  | [], _ => none
  | (k', v) :: rest, k => if k' = k then some v else alookup rest k

/-- Rust HashMap insert: replaces the value stored at the key when present,
appends the pair otherwise. -/
def ainsert {α β : Type} [DecidableEq α] : List (α × β) → α → β → List (α × β)
  | [], k, v => [(k, v)]
  | (k', v') :: rest, k, v =>
      if k' = k then (k, v) :: rest else (k', v') :: ainsert rest k v

/-- EncryptedObject from src/crypto.rs lines 22 to 31: the self-describing
ciphertext envelope.  ObjectID values (32-byte identifiers) are embedded as
Nat; opaque IBEEncryptions and Ciphertext payloads are embedded as Nat since
the client never inspects them, only passes them to the external primitive. -/
structure EncryptedObject where
  version : Nat
  packageId : Nat
  id : List Nat
  services : List (Nat × Nat)
  threshold : Nat
  encryptedShares : Nat
  ciphertext : Nat
deriving DecidableEq

/-- DecryptionKey from src/crypto.rs lines 124 to 128: one released share,
with its item id and its ElGamal-encrypted key (opaque, embedded as Nat). -/
structure DecryptionKey where
  id : List Nat
  encryptedKey : Nat
deriving DecidableEq

/-- FetchKeyResponse from src/crypto.rs lines 130 to 133. -/
structure FetchKeyResponse where
  decryptionKeys : List DecryptionKey
deriving DecidableEq

/-- The external cryptographic primitives that src/crypto.rs imports from the
seal_crypto and fastcrypto crates, consumed as opaque capabilities.  Group
elements, secret keys and derived plaintexts are embedded as Nat. -/
structure CryptoPrims where
  elgamalDecrypt : Nat → Nat → Nat
  verifyUserSecretKey : Nat → List Nat → Nat → Bool
  createFullId : Nat → List Nat → List Nat
  sealDecrypt : EncryptedObject → List (Nat × Nat) → List Nat → Option (List Nat)

/-- Errors produced by seal_decrypt_all_objects in src/crypto.rs.  The source
returns FastCryptoError values (mostly GeneralError with a message); each
distinct error construction site gets one constructor here. -/
inductive DecryptError where
  | noSealResponses
  | duplicateServer (serverId : Nat)
  | noPublicKeyForServer (serverId : Nat)
  | invalidUserSecretKey
  | noKeysForObject (fullId : List Nat)
  | missingServerShare (serverId : Nat)
  | insufficientKeysForObject (received threshold : Nat)
  | sealDecryptFailed
deriving DecidableEq

/-- The inner loop of step 1 of seal_decrypt_all_objects, src/crypto.rs lines
169 to 178: for one server response, ElGamal-decrypt every released share,
verify it against the issuing server public key (a failure propagates), and
accumulate it into the id-to-server-to-share mapping. -/
def processKeys (prims : CryptoPrims) (encSecret : Nat) (pk : Nat) (sid : Nat) :
    List DecryptionKey → List (List Nat × List (Nat × Nat)) →
    Except DecryptError (List (List Nat × List (Nat × Nat)))
  | [], cached => .ok cached
  | dk :: rest, cached =>
      let usk := prims.elgamalDecrypt encSecret dk.encryptedKey
      if prims.verifyUserSecretKey usk dk.id pk then
        processKeys prims encSecret pk sid rest
          (match alookup cached dk.id with
           | none => ainsert cached dk.id [(sid, usk)]
           | some inner => ainsert cached dk.id (ainsert inner sid usk))
      else .error .invalidUserSecretKey

/-- Step 1 of seal_decrypt_all_objects, src/crypto.rs lines 151 to 179: walk
the responses in order, reject a server id already processed, look up the
server public key, and verify and accumulate every share it released. -/
def processResponses (prims : CryptoPrims) (encSecret : Nat)
    (pkMap : List (Nat × Nat)) :
    List (Nat × FetchKeyResponse) → List Nat →
    List (List Nat × List (Nat × Nat)) →
    Except DecryptError (List (List Nat × List (Nat × Nat)))
  | [], _, cached => .ok cached
  | (sid, resp) :: rest, processed, cached =>
      if sid ∈ processed then .error (.duplicateServer sid)
      else
        match alookup pkMap sid with
        | none => .error (.noPublicKeyForServer sid)
        | some pk =>
            match processKeys prims encSecret pk sid resp.decryptionKeys cached with
            | .error e => .error e
            | .ok cached2 =>
                processResponses prims encSecret pkMap rest (sid :: processed) cached2

/-- The per-service loop of step 2, src/crypto.rs lines 191 to 209: for each
(server_id, index) pair the envelope references, require a verified share
from that exact server and a configured public key, accumulating the shares
into a map keyed by server (usks) and the keys into a plain list (pks). -/
def collectShares (pkMap keysForId : List (Nat × Nat)) :
    List (Nat × Nat) → List (Nat × Nat) → List Nat →
    Except DecryptError (List (Nat × Nat) × List Nat)
  | [], usks, pks => .ok (usks, pks)
  | (sid, _idx) :: rest, usks, pks =>
      match alookup keysForId sid with
      | none => .error (.missingServerShare sid)
      | some usk =>
          match alookup pkMap sid with
          | none => .error (.noPublicKeyForServer sid)
          | some pk => collectShares pkMap keysForId rest (ainsert usks sid usk) (pks ++ [pk])

/-- The per-envelope body of step 2 of seal_decrypt_all_objects,
src/crypto.rs lines 182 to 225: compute the full id, look it up in the
accumulated mapping (absence fatal), match every referenced service (absence
fatal), enforce the threshold on the number of distinct matched shares, and
hand over to the external combine primitive. -/
def decryptOneObject (prims : CryptoPrims) (pkMap : List (Nat × Nat))
    (cached : List (List Nat × List (Nat × Nat))) (eo : EncryptedObject) :
    Except DecryptError (List Nat) :=
  let fullId := prims.createFullId eo.packageId eo.id
  match alookup cached fullId with
  | none => .error (.noKeysForObject fullId)
  | some keysForId =>
      match collectShares pkMap keysForId eo.services [] [] with
      | .error e => .error e
      | .ok (usks, pks) =>
          if usks.length < eo.threshold then
            .error (.insufficientKeysForObject usks.length eo.threshold)
          else
            match prims.sealDecrypt eo usks pks with
            | none => .error .sealDecryptFailed
            | some pt => .ok pt

/-- The loop over target envelopes of step 2, src/crypto.rs lines 181 to 226:
decrypt each envelope in order, pushing the plaintexts; the first failure
aborts the whole operation. -/
def mapObjects (prims : CryptoPrims) (pkMap : List (Nat × Nat))
    (cached : List (List Nat × List (Nat × Nat))) :
    List EncryptedObject → Except DecryptError (List (List Nat))
  | [] => .ok []
  | eo :: rest =>
      match decryptOneObject prims pkMap cached eo with
      | .error e => .error e
      | .ok pt =>
          match mapObjects prims pkMap cached rest with
          | .error e => .error e
          | .ok pts => .ok (pt :: pts)

/-- seal_decrypt_all_objects, src/crypto.rs lines 136 to 229: empty target
list short-circuits to success, empty response list is an error, then step 1
(verify and accumulate) feeds step 2 (match and combine per envelope). -/
def seal_decrypt_all_objects (prims : CryptoPrims) (encSecret : Nat)
    (sealResponses : List (Nat × FetchKeyResponse))
    (encryptedObjects : List EncryptedObject)
    (serverPkMap : List (Nat × Nat)) : Except DecryptError (List (List Nat)) :=
  match encryptedObjects with
  | [] => .ok []
  | _ :: _ =>
      match sealResponses with
      | [] => .error .noSealResponses
      | _ :: _ =>
          match processResponses prims encSecret serverPkMap sealResponses [] [] with
          | .error e => .error e
          | .ok cached => mapObjects prims serverPkMap cached encryptedObjects

/-- Value of one hexadecimal digit, as accepted by the hex crate used in
src/base_client.rs line 404 (both cases accepted). -/
def hexDigitVal (c : Char) : Option Nat :=
  if 48 ≤ c.toNat ∧ c.toNat ≤ 57 then some (c.toNat - 48)
  else if 97 ≤ c.toNat ∧ c.toNat ≤ 102 then some (c.toNat - 87)
  else if 65 ≤ c.toNat ∧ c.toNat ≤ 70 then some (c.toNat - 55)
  else none

/-- Byte-pair decoding of a hex character list: fails on odd length or on a
non-hex character, as hex::decode does. -/
def hexDecodeChars : List Char → Option (List Nat)
  | [] => some []
  | [_] => none
  | a :: b :: rest =>
      match hexDigitVal a, hexDigitVal b, hexDecodeChars rest with
      | some hi, some lo, some tail => some ((16 * hi + lo) :: tail)
      | _, _, _ => none

/-- hex::decode on a string, called by decode_public_key in
src/base_client.rs line 404. -/
def hex_decode (s : String) : Option (List Nat) :=
  hexDecodeChars s.toList

/-- SealClientError from src/error.rs, restricted to the variants reachable
from the embedded operations.  The FastCrypto variant wraps the crypto layer
errors; invalidInput stands for the FastCryptoError that
G2Element::from_trusted_byte_array returns on a malformed encoding and that
src/base_client.rs line 415 propagates unchanged. -/
inductive SealClientError where
  | fastCrypto (e : DecryptError)
  | invalidInput
  | bcs
  | jsonSerialization
  | hexDeserialization
  | sessionKey
  | suiClient (message : String)
  | httpPost
  | errorWhileFetchingDerivedKeys (url : String) (status : Nat) (response : String)
  | insufficientKeys (received : Nat) (threshold : Nat)
  | invalidPublicKey (publicKey : String) (reason : String)
deriving DecidableEq

/-- KeyServerInfo from src/base_client.rs lines 20 to 26. -/
structure KeyServerInfo where
  objectId : Nat
  name : String
  url : String
  publicKey : String
deriving DecidableEq

/-- PostResponse from src/http_client.rs lines 4 to 7. -/
structure PostResponse where
  status : Nat
  text : String
deriving DecidableEq

/-- PostResponse::is_success from src/http_client.rs lines 9 to 15: any
status in the 2xx range. -/
def PostResponse.is_success (r : PostResponse) : Bool :=
  decide (200 ≤ r.status) && decide (r.status < 300)

/-- decode_public_key from src/base_client.rs lines 403 to 416: hex-decode
the record string (failure is a hex error), require exactly 96 bytes
(failure is InvalidPublicKey with reason Invalid length.), then let the
external G2Element::from_trusted_byte_array parse it (failure propagates as
the wrapped fastcrypto error, not as InvalidPublicKey). -/
def decode_public_key (g2Decode : List Nat → Option Nat) (info : KeyServerInfo) :
    Except SealClientError Nat :=
  match hex_decode info.publicKey with
  | none => .error .hexDeserialization
  | some bytes =>
      if bytes.length = 96 then
        match g2Decode bytes with
        | none => .error .invalidInput
        | some g => .ok g
      else .error (.invalidPublicKey info.publicKey "Invalid length.")

/-- The external collaborators of BaseSealClient, consumed as opaque
capabilities: the crypto primitives, the bcs envelope codec, the blockchain
directory lookup (with both caches taken as the baseline pass-through
NoCache backend), the group-element decoder, the HTTP POST transport, the
response JSON parser, and the signed fetch-key request built by
SessionKey::get_fetch_key_request (its randomness and serialization folded
into one Except value: the request JSON body and the encapsulation secret). -/
structure ClientEnv where
  prims : CryptoPrims
  bcsDecode : List Nat → Option EncryptedObject
  getKeyServerInfo : Nat → Except String KeyServerInfo
  g2Decode : List Nat → Option Nat
  post : String → String → Except Unit PostResponse
  parseFetchKeyResponse : String → Option FetchKeyResponse
  fetchKeyRequest : Except Unit (String × Nat)

/-- fetch_key_server_info from src/base_client.rs lines 311 to 337: one
lookup per identifier, all run to completion, collected in request order,
the first failure in that order becoming the result. -/
def fetch_key_server_info (env : ClientEnv) :
    List Nat → Except SealClientError (List KeyServerInfo)
  | [] => .ok []
  | sid :: rest =>
      match env.getKeyServerInfo sid with
      | .error msg => .error (.suiClient msg)
      | .ok info =>
          match fetch_key_server_info env rest with
          | .error e => .error e
          | .ok infos => .ok (info :: infos)

/-- The public-key map construction of decrypt_multiple_objects_bytes,
src/base_client.rs lines 279 to 286 (the encrypt path, lines 153 to 156,
decodes the same way): decode every record public key, any failure aborting
the whole resolution. -/
def buildPkMap (env : ClientEnv) :
    List KeyServerInfo → Except SealClientError (List (Nat × Nat))
  | [] => .ok []
  | info :: rest =>
      match decode_public_key env.g2Decode info with
      | .error e => .error e
      | .ok pk =>
          match buildPkMap env rest with
          | .error e => .error e
          | .ok pairs => .ok ((info.objectId, pk) :: pairs)

/-- The per-server future of fetch_derived_keys, src/base_client.rs lines
351 to 375: POST to the release endpoint of the server, treat a transport
error or a non-2xx status or an unparsable body as a failure for this server
only, otherwise keep the (server id, parsed response) pair. -/
def fetchOne (post : String → String → Except Unit PostResponse)
    (parse : String → Option FetchKeyResponse) (requestJson : String)
    (server : KeyServerInfo) : Except SealClientError (Nat × FetchKeyResponse) :=
  let url := server.url ++ "/v1/fetch_key"
  match post url requestJson with
  | .error _ => .error .httpPost
  | .ok resp =>
      if resp.is_success then
        match parse resp.text with
        | none => .error .jsonSerialization
        | some r => .ok (server.objectId, r)
      else .error (.errorWhileFetchingDerivedKeys url resp.status resp.text)

/-- fetch_derived_keys from src/base_client.rs lines 339 to 401: fan the
request out to every server, wait for all results to settle (join_all),
keep every success and drop every failure (filter_map ok), then fail with
InsufficientKeys when fewer than threshold successes remain and return all
the successes otherwise. -/
def fetch_derived_keys (post : String → String → Except Unit PostResponse)
    (parse : String → Option FetchKeyResponse) (requestJson : String)
    (keyServersInfo : List KeyServerInfo) (threshold : Nat) :
    Except SealClientError (List (Nat × FetchKeyResponse)) :=
  let successes :=
    (keyServersInfo.map (fetchOne post parse requestJson)).filterMap Except.toOption
  if successes.length < threshold then
    .error (.insufficientKeys successes.length threshold)
  else .ok successes

/-- The server-resolution and fetch phase of decrypt_multiple_objects_bytes,
src/base_client.rs lines 270 to 300.  The source takes the service list and
the threshold from first_encrypted_object only, so this phase is a function
of the first envelope: resolve the servers its services reference, decode
their public keys, build the signed session request, and run the fetch
round with its threshold. -/
def fetchRound (env : ClientEnv) (firstObj : EncryptedObject) :
    Except SealClientError (List (Nat × Nat) × List (Nat × FetchKeyResponse) × Nat) :=
  let serviceIds := firstObj.services.map Prod.fst
  match fetch_key_server_info env serviceIds with
  | .error e => .error e
  | .ok infos =>
      match buildPkMap env infos with
      | .error e => .error e
      | .ok pkMap =>
          match env.fetchKeyRequest with
          | .error _ => .error .sessionKey
          | .ok (requestJson, encSecret) =>
              match fetch_derived_keys env.post env.parseFetchKeyResponse requestJson
                  infos firstObj.threshold with
              | .error e => .error e
              | .ok derived => .ok (pkMap, derived, encSecret)

/-- The envelope decoding of decrypt_multiple_objects_bytes,
src/base_client.rs lines 265 to 268: bcs-decode every input, any failure
aborting before any network activity. -/
def decodeObjects (env : ClientEnv) : List (List Nat) → Option (List EncryptedObject)
  | [] => some []
  | d :: ds =>
      match env.bcsDecode d, decodeObjects env ds with
      | some eo, some eos => some (eo :: eos)
      | _, _ => none

/-- decrypt_multiple_objects_bytes from src/base_client.rs lines 252 to 309:
empty input short-circuits to success; otherwise decode all envelopes, run
the fetch phase driven by the first envelope, and combine the shares for all
envelopes.  The branch matching a decoded empty list is unreachable since
the input is non-empty and decoding preserves length. -/
def decrypt_multiple_objects_bytes (env : ClientEnv) (datas : List (List Nat)) :
    Except SealClientError (List (List Nat)) :=
  match datas with
  | [] => .ok []
  | _ :: _ =>
      match decodeObjects env datas with
      | none => .error .bcs
      | some [] => .error .bcs
      | some (firstObj :: restObjs) =>
          match fetchRound env firstObj with
          | .error e => .error e
          | .ok (pkMap, derived, encSecret) =>
              match seal_decrypt_all_objects env.prims encSecret derived
                  (firstObj :: restObjs) pkMap with
              | .error e => .error (.fastCrypto e)
              | .ok results => .ok results

/-- SessionKeyError from src/error.rs lines 65 to 86, restricted to the
variants reachable from the embedded SessionKey::new; signerError stands for
the converted error of the wallet signer capability. -/
inductive SessionKeyError where
  | invalidTTLMin (min max received : Nat)
  | cannotGenerateSignedMessage (packageId : Nat) (creationTimestampMs : Nat) (ttlMin : Nat)
  | signerError
deriving DecidableEq

/-- The observable effects SessionKey::new performs, in source order:
querying the signer address and public key, generating the ephemeral
keypair, and asking the signer capability to sign the canonical message.
The network, if any, hides behind the signer capability. -/
inductive SessionEffect where
  | getSuiAddress
  | getPublicKey
  | generateKeypair
  | signPersonalMessage (message : String)
deriving DecidableEq

/-- The collaborators of SessionKey::new, src/session_key.rs lines 35 to 92:
the signer capability (address, public key, personal-message signing), the
generated session verification key and the clock (randomness and time taken
as given values), the ObjectId display rendering, and the chrono UTC
calendar rendering of a whole-second timestamp (from_timestamp composed
with Display, None outside the chrono range). -/
structure SessionEnv where
  suiAddress : Except Unit Nat
  publicKey : Except Unit Nat
  sessionVkRender : String
  nowMs : Nat
  renderObjectId : Nat → String
  utcDisplay : Nat → Option String
  sign : String → Except Unit (List Nat)

/-- signed_message from src/session_key.rs lines 164 to 179: the canonical
certificate message.  The millisecond creation time is divided by 1000
before the calendar rendering; the cast to i64 the source performs there
cannot wrap since the quotient of any u64 by 1000 is below 2 to the 63. -/
def signed_message (utcDisplay : Nat → Option String) (packageName : String)
    (vk : String) (creationTime : Nat) (ttlMin : Nat) : Option String :=
  match utcDisplay (creationTime / 1000) with
  | none => none
  | some ts =>
      some ("Accessing keys of package " ++ packageName ++ " for " ++ toString ttlMin
        ++ " mins from " ++ ts ++ ", session key " ++ vk)

/-- The data SessionKey::new stores on success, src/session_key.rs lines 24
to 32, restricted to the fields the claims observe. -/
structure SessionKeyData where
  address : Nat
  packageId : Nat
  creationTimeMs : Nat
  ttlMin : Nat
  signature : List Nat
deriving DecidableEq

/-- SessionKey::new from src/session_key.rs lines 35 to 92, paired with the
trace of signer and keypair effects it performs: the TTL bounds check comes
first (MIN_TTL_MIN = 1, MAX_TTL_MAX = 30, both inclusive), before any signer
call; then the signer queries, the keypair generation, the canonical message
construction (None from chrono is fatal) and the personal-message signing. -/
def SessionKey_new (env : SessionEnv) (packageId : Nat) (ttlMin : Nat) :
    Except SessionKeyError SessionKeyData × List SessionEffect :=
  if ttlMin < 1 ∨ 30 < ttlMin then
    (.error (.invalidTTLMin 1 30 ttlMin), [])
  else
    match env.suiAddress with
    | .error _ => (.error .signerError, [.getSuiAddress])
    | .ok addr =>
        match env.publicKey with
        | .error _ => (.error .signerError, [.getSuiAddress, .getPublicKey])
        | .ok _pk =>
            match signed_message env.utcDisplay (env.renderObjectId packageId)
                env.sessionVkRender env.nowMs ttlMin with
            | none =>
                (.error (.cannotGenerateSignedMessage packageId env.nowMs ttlMin),
                 [.getSuiAddress, .getPublicKey, .generateKeypair])
            | some msg =>
                match env.sign msg with
                | .error _ =>
                    (.error .signerError,
                     [.getSuiAddress, .getPublicKey, .generateKeypair,
                      .signPersonalMessage msg])
                | .ok sig =>
                    (.ok { address := addr, packageId := packageId,
                           creationTimeMs := env.nowMs, ttlMin := ttlMin,
                           signature := sig },
                     [.getSuiAddress, .getPublicKey, .generateKeypair,
                      .signPersonalMessage msg])

/-! Concrete fixtures used to evaluate the embedded operations on the
scenarios the claims mention.  The opaque collaborators get the simplest
executable instantiations: ElGamal decryption returns the carried payload,
verification always succeeds, the full id is the package id prepended to the
item id, and the combine primitive returns the list of shares it was
given. -/

/-- Trivial instantiation of the external cryptographic primitives. -/
def prims0 : CryptoPrims where
  elgamalDecrypt := fun _ k => k
  verifyUserSecretKey := fun _ _ _ => true
  createFullId := fun p i => p :: i
  sealDecrypt := fun _ usks _ => some (usks.map Prod.snd)

/-- An envelope naming three key servers with threshold two, as in the
crashed-server scenario of the spec and of the repository test
test_encrypt_decrypt_bytes_three_servers_threshold_two_one_crash. -/
def eo1 : EncryptedObject where
  version := 0
  packageId := 1
  id := [9]
  services := [(10, 0), (11, 1), (12, 2)]
  threshold := 2
  encryptedShares := 0
  ciphertext := 0

/-- An envelope whose services list names the same server twice, with
threshold two. -/
def eoDup : EncryptedObject where
  version := 0
  packageId := 1
  id := [9]
  services := [(10, 0), (10, 1)]
  threshold := 2
  encryptedShares := 0
  ciphertext := 0

/-- Public keys for the three fixture servers. -/
def pkMap0 : List (Nat × Nat) := [(10, 100), (11, 101), (12, 102)]

/-- A released share for the full id of eo1 (package 1, item [9]). -/
def dk1 (payload : Nat) : DecryptionKey := { id := [1, 9], encryptedKey := payload }

/-- Responses from servers 10 and 11 only: exactly threshold many correct
responses, with server 12 unreachable. -/
def resp2of3 : List (Nat × FetchKeyResponse) :=
  [(10, ⟨[dk1 5]⟩), (11, ⟨[dk1 6]⟩)]

/-- Responses from all three fixture servers. -/
def resp3of3 : List (Nat × FetchKeyResponse) :=
  [(10, ⟨[dk1 5]⟩), (11, ⟨[dk1 6]⟩), (12, ⟨[dk1 7]⟩)]

/-- Responses naming server 10 twice. -/
def respDup : List (Nat × FetchKeyResponse) :=
  [(10, ⟨[dk1 5]⟩), (10, ⟨[dk1 6]⟩)]

/-- A 192-character hex string of zeros: hex-decodes to 96 zero bytes, which
is not a valid compressed G2 element encoding. -/
def zeros192 : String := String.mk (List.replicate 192 '0')

/-- Fixture key server records for servers 10, 11 and 12. -/
def infoA : KeyServerInfo := { objectId := 10, name := "a", url := "ua", publicKey := zeros192 }

/-- Second fixture record. -/
def infoB : KeyServerInfo := { objectId := 11, name := "b", url := "ub", publicKey := zeros192 }

/-- Third fixture record; its server is the one made unreachable. -/
def infoC : KeyServerInfo := { objectId := 12, name := "c", url := "uc", publicKey := zeros192 }

/-- A record whose public key has valid hex but the wrong byte length. -/
def infoShortPk : KeyServerInfo := { objectId := 13, name := "d", url := "ud", publicKey := "00" }

/-- Full client environment for the crashed-server scenario: the directory
resolves the three servers of eo1, public keys decode, the envelope bytes
[1] decode to eo1, servers 10 and 11 answer with 2xx and a share for the
full id of eo1, and the POST to server 12 fails at the transport. -/
def envC1 : ClientEnv where
  prims := prims0
  bcsDecode := fun d => if d = [1] then some eo1 else none
  getKeyServerInfo := fun sid =>
    if sid = 10 then .ok infoA
    else if sid = 11 then .ok infoB
    else if sid = 12 then .ok infoC
    else .error "unknown server"
  g2Decode := fun _ => some 7
  post := fun url _ =>
    if url = "ua/v1/fetch_key" then .ok { status := 200, text := "ra" }
    else if url = "ub/v1/fetch_key" then .ok { status := 200, text := "rb" }
    else .error ()
  parseFetchKeyResponse := fun t =>
    if t = "ra" then some ⟨[dk1 5]⟩
    else if t = "rb" then some ⟨[dk1 6]⟩
    else none
  fetchKeyRequest := .ok ("req", 0)

/-- A group-element decoder that rejects every byte string, standing for
from_trusted_byte_array on malformed encodings. -/
def g2none : List Nat → Option Nat := fun _ => none

/-- A transport in which every server answers 404. -/
def post404 : String → String → Except Unit PostResponse :=
  fun _ _ => .ok { status := 404, text := "not found" }

/-- A parser that accepts nothing, unreachable in the 404 fixtures. -/
def parseNone : String → Option FetchKeyResponse := fun _ => none

/-- A signer environment whose every capability succeeds. -/
def sessionEnv0 : SessionEnv where
  suiAddress := .ok 5
  publicKey := .ok 6
  sessionVkRender := "VK"
  nowMs := 1234567
  renderObjectId := fun p => toString p
  utcDisplay := fun s => some (toString s)
  sign := fun _ => .ok [1, 2]

/-! Helper lemmas about the embedded operations. -/

lemma mem_ainsert_keys {β : Type} (l : List (Nat × β)) (k x : Nat) (v : β) :
    x ∈ (ainsert l k v).map Prod.fst ↔ x = k ∨ x ∈ l.map Prod.fst := by
  induction l with
  | nil => simp [ainsert]
  | cons p rest ih =>
      obtain ⟨k', v'⟩ := p
      by_cases hk : k' = k
      · subst hk
        simp [ainsert]
      · simp [ainsert, hk, ih]
        tauto

lemma ainsert_keys_toFinset {β : Type} (l : List (Nat × β)) (k : Nat) (v : β) :
    ((ainsert l k v).map Prod.fst).toFinset = insert k (l.map Prod.fst).toFinset := by
  induction l with
  | nil => simp [ainsert]
  | cons p rest ih =>
      obtain ⟨k', v'⟩ := p
      by_cases hk : k' = k
      · subst hk
        simp [ainsert]
      · simp [ainsert, hk, ih, List.toFinset_cons]
        rw [Finset.Insert.comm]

lemma ainsert_keys_nodup {β : Type} (l : List (Nat × β)) (k : Nat) (v : β)
    (h : (l.map Prod.fst).Nodup) : ((ainsert l k v).map Prod.fst).Nodup := by
  induction l with
  | nil => simp [ainsert]
  | cons p rest ih =>
      obtain ⟨k', v'⟩ := p
      simp only [List.map_cons, List.nodup_cons] at h
      by_cases hk : k' = k
      · subst hk
        simpa [ainsert, List.nodup_cons] using h
      · simp only [ainsert, if_neg hk, List.map_cons, List.nodup_cons]
        refine ⟨?_, ih h.2⟩
        intro hmem
        rcases (mem_ainsert_keys rest k k' v).mp hmem with h1 | h1
        · exact hk h1
        · exact h.1 h1

lemma collectShares_ok_spec (pkMap keysForId : List (Nat × Nat)) :
    ∀ (svcs : List (Nat × Nat)) (usks : List (Nat × Nat)) (pks : List Nat),
    (∀ p ∈ svcs, (alookup keysForId p.1).isSome ∧ (alookup pkMap p.1).isSome) →
    (usks.map Prod.fst).Nodup →
    ∃ usks2 pks2, collectShares pkMap keysForId svcs usks pks = .ok (usks2, pks2) ∧
      (usks2.map Prod.fst).Nodup ∧
      (usks2.map Prod.fst).toFinset =
        (usks.map Prod.fst).toFinset ∪ (svcs.map Prod.fst).toFinset := by
  intro svcs
  induction svcs with
  | nil =>
      intro usks pks _ hnd
      exact ⟨usks, pks, rfl, hnd, by simp⟩
  | cons p rest ih =>
      intro usks pks hall hnd
      obtain ⟨sid, idx⟩ := p
      obtain ⟨h1, h2⟩ := hall (sid, idx) (List.mem_cons_self _ _)
      obtain ⟨usk, husk⟩ := Option.isSome_iff_exists.mp h1
      obtain ⟨pk, hpk⟩ := Option.isSome_iff_exists.mp h2
      obtain ⟨usks2, pks2, heq, hnd2, hfin⟩ :=
        ih (ainsert usks sid usk) (pks ++ [pk])
          (fun q hq => hall q (List.mem_cons_of_mem _ hq))
          (ainsert_keys_nodup usks sid usk hnd)
      refine ⟨usks2, pks2, ?_, hnd2, ?_⟩
      · simp only [collectShares, husk, hpk]
        exact heq
      · rw [hfin, ainsert_keys_toFinset, List.map_cons, List.toFinset_cons,
          Finset.insert_union, Finset.union_insert]

lemma collectShares_missing (pkMap keysForId : List (Nat × Nat)) :
    ∀ (svcs : List (Nat × Nat)) (usks : List (Nat × Nat)) (pks : List Nat),
    (∃ s ∈ svcs.map Prod.fst, alookup keysForId s = none) →
    ∃ e, collectShares pkMap keysForId svcs usks pks = .error e := by
  intro svcs
  induction svcs with
  | nil =>
      intro usks pks h
      simp at h
  | cons p rest ih =>
      intro usks pks h
      obtain ⟨sid, idx⟩ := p
      cases husk : alookup keysForId sid with
      | none => exact ⟨.missingServerShare sid, by simp [collectShares, husk]⟩
      | some usk =>
          cases hpk : alookup pkMap sid with
          | none => exact ⟨.noPublicKeyForServer sid, by simp [collectShares, husk, hpk]⟩
          | some pk =>
              obtain ⟨s, hs, hnone⟩ := h
              rw [List.map_cons] at hs
              rcases List.mem_cons.mp hs with h1 | h1
              · subst h1
                rw [husk] at hnone
                simp at hnone
              · obtain ⟨e, he⟩ :=
                  ih (ainsert usks sid usk) (pks ++ [pk]) ⟨s, by simpa using h1, hnone⟩
                exact ⟨e, by simp [collectShares, husk, hpk, he]⟩

lemma decryptOneObject_insufficient (prims : CryptoPrims) (pkMap : List (Nat × Nat))
    (cached : List (List Nat × List (Nat × Nat))) (eo : EncryptedObject)
    (keysForId : List (Nat × Nat))
    (hM : alookup cached (prims.createFullId eo.packageId eo.id) = some keysForId)
    (hall : ∀ p ∈ eo.services, (alookup keysForId p.1).isSome ∧ (alookup pkMap p.1).isSome)
    (hlt : (eo.services.map Prod.fst).toFinset.card < eo.threshold) :
    decryptOneObject prims pkMap cached eo =
      .error (.insufficientKeysForObject
        (eo.services.map Prod.fst).toFinset.card eo.threshold) := by
  obtain ⟨usks2, pks2, heq, hnd, hfin⟩ :=
    collectShares_ok_spec pkMap keysForId eo.services [] [] hall (by simp)
  have hlen : usks2.length = (eo.services.map Prod.fst).toFinset.card := by
    have hmaplen : (usks2.map Prod.fst).length = usks2.length := by simp
    rw [← hmaplen, ← List.toFinset_card_of_nodup hnd, hfin]
    simp
  simp only [decryptOneObject, hM, heq]
  rw [hlen, if_pos hlt]

lemma mapObjects_error_of_mem (prims : CryptoPrims) (pkMap : List (Nat × Nat))
    (cached : List (List Nat × List (Nat × Nat))) :
    ∀ (objs : List EncryptedObject) (eo : EncryptedObject) (e0 : DecryptError),
    eo ∈ objs → decryptOneObject prims pkMap cached eo = .error e0 →
    ∃ e, mapObjects prims pkMap cached objs = .error e := by
  intro objs
  induction objs with
  | nil =>
      intro eo e0 hmem _
      exact absurd hmem (List.not_mem_nil _)
  | cons a rest ih =>
      intro eo e0 hmem he
      rcases List.mem_cons.mp hmem with h1 | h1
      · subst h1
        exact ⟨e0, by simp [mapObjects, he]⟩
      · cases ha : decryptOneObject prims pkMap cached a with
        | error e => exact ⟨e, by simp [mapObjects, ha]⟩
        | ok pt =>
            obtain ⟨e, hrest⟩ := ih eo e0 h1 he
            exact ⟨e, by simp [mapObjects, ha, hrest]⟩

lemma mapObjects_ok_spec (prims : CryptoPrims) (pkMap : List (Nat × Nat))
    (cached : List (List Nat × List (Nat × Nat))) :
    ∀ (objs : List EncryptedObject) (outs : List (List Nat)),
    mapObjects prims pkMap cached objs = .ok outs →
    outs.length = objs.length ∧
    ∀ (i : Nat) (h1 : i < objs.length) (h2 : i < outs.length),
      decryptOneObject prims pkMap cached (objs.get ⟨i, h1⟩) = .ok (outs.get ⟨i, h2⟩) := by
  intro objs
  induction objs with
  | nil =>
      intro outs h
      simp only [mapObjects] at h
      cases h
      exact ⟨rfl, fun i h1 _ => absurd h1 (Nat.not_lt_zero i)⟩
  | cons a rest ih =>
      intro outs h
      cases ha : decryptOneObject prims pkMap cached a with
      | error e => simp [mapObjects, ha] at h
      | ok pt =>
          cases hrest : mapObjects prims pkMap cached rest with
          | error e => simp [mapObjects, ha, hrest] at h
          | ok pts =>
              simp only [mapObjects, ha, hrest] at h
              cases h
              obtain ⟨hlen, hidx⟩ := ih pts hrest
              refine ⟨by simp [hlen], ?_⟩
              intro i h1 h2
              cases i with
              | zero => simpa using ha
              | succ n =>
                  have h1n : n < rest.length := by simpa using h1
                  have h2n : n < pts.length := by simpa using h2
                  simpa using hidx n h1n h2n

lemma processResponses_dup (prims : CryptoPrims) (encSecret : Nat)
    (pkMap : List (Nat × Nat)) :
    ∀ (rs : List (Nat × FetchKeyResponse)) (processed : List Nat)
      (cached : List (List Nat × List (Nat × Nat))),
    ((∃ s, s ∈ rs.map Prod.fst ∧ s ∈ processed) ∨ ¬ (rs.map Prod.fst).Nodup) →
    ∃ e, processResponses prims encSecret pkMap rs processed cached = .error e := by
  intro rs
  induction rs with
  | nil =>
      intro processed cached h
      rcases h with ⟨s, hs, _⟩ | h
      · simp at hs
      · simp at h
  | cons r rest ih =>
      intro processed cached h
      obtain ⟨sid, resp⟩ := r
      by_cases hmem : sid ∈ processed
      · exact ⟨.duplicateServer sid, by simp [processResponses, hmem]⟩
      · have hrest : (∃ s, s ∈ rest.map Prod.fst ∧ s ∈ sid :: processed) ∨
            ¬ (rest.map Prod.fst).Nodup := by
          rcases h with ⟨s, hs, hsp⟩ | hnd
          · rw [List.map_cons] at hs
            rcases List.mem_cons.mp hs with h1 | h1
            · have h1b : s = sid := h1
              exact absurd (h1b ▸ hsp) hmem
            · exact Or.inl ⟨s, h1, List.mem_cons_of_mem _ hsp⟩
          · rw [List.map_cons, List.nodup_cons] at hnd
            push_neg at hnd
            by_cases hin : sid ∈ rest.map Prod.fst
            · exact Or.inl ⟨sid, hin, List.mem_cons_self _ _⟩
            · exact Or.inr (hnd hin)
        cases hpk : alookup pkMap sid with
        | none => exact ⟨.noPublicKeyForServer sid, by simp [processResponses, hmem, hpk]⟩
        | some pk =>
            cases hk : processKeys prims encSecret pk sid resp.decryptionKeys cached with
            | error e => exact ⟨e, by simp [processResponses, hmem, hpk, hk]⟩
            | ok cached2 =>
                obtain ⟨e, he⟩ := ih (sid :: processed) cached2 hrest
                exact ⟨e, by simp [processResponses, hmem, hpk, hk, he]⟩

lemma seal_error_of_step2 (prims : CryptoPrims) (encSecret : Nat)
    (responses : List (Nat × FetchKeyResponse)) (objs : List EncryptedObject)
    (pkMap : List (Nat × Nat)) (M : List (List Nat × List (Nat × Nat)))
    (hne : objs ≠ [])
    (hstep1 : processResponses prims encSecret pkMap responses [] [] = .ok M)
    (h2 : ∃ e0, mapObjects prims pkMap M objs = .error e0) :
    ∃ e, seal_decrypt_all_objects prims encSecret responses objs pkMap = .error e := by
  obtain ⟨e0, h2⟩ := h2
  cases objs with
  | nil => exact absurd rfl hne
  | cons o rest =>
      cases responses with
      | nil => exact ⟨.noSealResponses, rfl⟩
      | cons r rs => exact ⟨e0, by simp [seal_decrypt_all_objects, hstep1, h2]⟩

lemma seal_ok_inv (prims : CryptoPrims) (encSecret : Nat)
    (responses : List (Nat × FetchKeyResponse)) (objs : List EncryptedObject)
    (pkMap : List (Nat × Nat)) (outs : List (List Nat)) (hne : objs ≠ [])
    (h : seal_decrypt_all_objects prims encSecret responses objs pkMap = .ok outs) :
    ∃ M, processResponses prims encSecret pkMap responses [] [] = .ok M ∧
      mapObjects prims pkMap M objs = .ok outs := by
  cases objs with
  | nil => exact absurd rfl hne
  | cons o rest =>
      cases responses with
      | nil => simp [seal_decrypt_all_objects] at h
      | cons r rs =>
          cases hp : processResponses prims encSecret pkMap (r :: rs) [] [] with
          | error e => simp [seal_decrypt_all_objects, hp] at h
          | ok M =>
              refine ⟨M, rfl, ?_⟩
              simpa [seal_decrypt_all_objects, hp] using h

/-! Claim theorems. -/

/-- C1: the claim fails on the code.  In the scenario of the spec and of the
repository test test_encrypt_decrypt_bytes_three_servers_threshold_two_one_crash
(an envelope naming three servers with threshold two, server 12 unreachable,
servers 10 and 11 responding correctly with verifying shares), the decrypt
operation does not succeed: the fetch round collects exactly the two correct
responses and passes the threshold, but the per-service matching of
seal_decrypt_all_objects demands a share from every server in the services
list of the envelope and fails with the missing-server error for server 12.
With all three servers responding the same pipeline succeeds, so the missing
third share is the only obstacle. -/
theorem C1_two_of_three_servers_decrypt_fails :
    decrypt_multiple_objects_bytes envC1 [[1]] =
      .error (.fastCrypto (.missingServerShare 12)) ∧
    fetch_derived_keys envC1.post envC1.parseFetchKeyResponse "req"
      [infoA, infoB, infoC] 2 = .ok [(10, ⟨[dk1 5]⟩), (11, ⟨[dk1 6]⟩)] ∧
    seal_decrypt_all_objects prims0 0 resp3of3 [eo1] pkMap0 = .ok [[5, 6, 7]] := by
  refine ⟨?_, ?_, ?_⟩ <;> decide

/-- C2: in the key fetcher, a server response with non-2xx status yields
ErrorWhileFetchingDerivedKeys for that server only; the whole fetch can only
fail as InsufficientKeys, exactly when fewer successes than the threshold
remain after all per-server requests settle, and otherwise every collected
success is returned, possibly more than threshold of them. -/
theorem C2_per_server_failures_and_threshold :
    (∀ (post : String → String → Except Unit PostResponse)
       (parse : String → Option FetchKeyResponse) (reqJson : String)
       (server : KeyServerInfo) (resp : PostResponse),
       post (server.url ++ "/v1/fetch_key") reqJson = .ok resp →
       resp.is_success = false →
       fetchOne post parse reqJson server =
         .error (.errorWhileFetchingDerivedKeys (server.url ++ "/v1/fetch_key")
           resp.status resp.text)) ∧
    (∀ (post : String → String → Except Unit PostResponse)
       (parse : String → Option FetchKeyResponse) (reqJson : String)
       (servers : List KeyServerInfo) (threshold : Nat) (e : SealClientError),
       fetch_derived_keys post parse reqJson servers threshold = .error e →
       ((servers.map (fetchOne post parse reqJson)).filterMap Except.toOption).length
           < threshold ∧
       e = .insufficientKeys
         ((servers.map (fetchOne post parse reqJson)).filterMap Except.toOption).length
         threshold) ∧
    (∀ (post : String → String → Except Unit PostResponse)
       (parse : String → Option FetchKeyResponse) (reqJson : String)
       (servers : List KeyServerInfo) (threshold : Nat),
       threshold ≤
         ((servers.map (fetchOne post parse reqJson)).filterMap Except.toOption).length →
       fetch_derived_keys post parse reqJson servers threshold =
         .ok ((servers.map (fetchOne post parse reqJson)).filterMap Except.toOption)) := by
  refine ⟨?_, ?_, ?_⟩
  · intro post parse reqJson server resp hpost hfail
    simp [fetchOne, hpost, hfail]
  · intro post parse reqJson servers threshold e h
    by_cases hlt :
        ((servers.map (fetchOne post parse reqJson)).filterMap Except.toOption).length
          < threshold
    · refine ⟨hlt, ?_⟩
      simp only [fetch_derived_keys, if_pos hlt] at h
      exact (Except.error.inj h).symm
    · simp only [fetch_derived_keys, if_neg hlt] at h
      cases h
  · intro post parse reqJson servers threshold h
    simp only [fetch_derived_keys, if_neg (Nat.not_lt.mpr h)]

/-- Witness for C2 at concrete inputs: a 404 server produces its per-server
error; with one 404 server and threshold one the fetch fails as
InsufficientKeys; with threshold zero it returns the empty success list. -/
theorem C2_per_server_failures_and_threshold_witness :
    fetchOne post404 parseNone "r" infoA =
      .error (.errorWhileFetchingDerivedKeys ("ua" ++ "/v1/fetch_key") 404 "not found") ∧
    ((([infoA].map (fetchOne post404 parseNone "r")).filterMap Except.toOption).length < 1 ∧
      SealClientError.insufficientKeys 0 1 =
        .insufficientKeys
          (([infoA].map (fetchOne post404 parseNone "r")).filterMap Except.toOption).length
          1) ∧
    fetch_derived_keys post404 parseNone "r" [infoA] 0 =
      .ok (([infoA].map (fetchOne post404 parseNone "r")).filterMap Except.toOption) :=
  ⟨C2_per_server_failures_and_threshold.1 post404 parseNone "r" infoA
      { status := 404, text := "not found" } rfl rfl,
   C2_per_server_failures_and_threshold.2.1 post404 parseNone "r" [infoA] 1
      (.insufficientKeys 0 1) (by decide),
   C2_per_server_failures_and_threshold.2.2 post404 parseNone "r" [infoA] 0
      (by decide)⟩

/-- C3: given the mapping accumulated by the verification step, for a target
envelope among the inputs: absence of its full id in the mapping is fatal
with the no-keys error; absence of a verified share from a server its
services list references is fatal to the whole operation; and when every
referenced server has a share and a key but the number of distinct matched
shares is below the envelope threshold, the envelope fails with the
insufficient-keys-for-object error and the whole operation fails. -/
theorem C3_combination_fatal_conditions :
    (∀ (prims : CryptoPrims) (encSecret : Nat) (pkMap : List (Nat × Nat))
       (responses : List (Nat × FetchKeyResponse))
       (M : List (List Nat × List (Nat × Nat)))
       (objs : List EncryptedObject) (eo : EncryptedObject),
       processResponses prims encSecret pkMap responses [] [] = .ok M →
       eo ∈ objs →
       alookup M (prims.createFullId eo.packageId eo.id) = none →
       decryptOneObject prims pkMap M eo =
         .error (.noKeysForObject (prims.createFullId eo.packageId eo.id)) ∧
       ∃ e, seal_decrypt_all_objects prims encSecret responses objs pkMap = .error e) ∧
    (∀ (prims : CryptoPrims) (encSecret : Nat) (pkMap : List (Nat × Nat))
       (responses : List (Nat × FetchKeyResponse))
       (M : List (List Nat × List (Nat × Nat)))
       (objs : List EncryptedObject) (eo : EncryptedObject)
       (keysForId : List (Nat × Nat)),
       processResponses prims encSecret pkMap responses [] [] = .ok M →
       eo ∈ objs →
       alookup M (prims.createFullId eo.packageId eo.id) = some keysForId →
       (∃ s ∈ eo.services.map Prod.fst, alookup keysForId s = none) →
       (∃ e0, decryptOneObject prims pkMap M eo = .error e0) ∧
       ∃ e, seal_decrypt_all_objects prims encSecret responses objs pkMap = .error e) ∧
    (∀ (prims : CryptoPrims) (encSecret : Nat) (pkMap : List (Nat × Nat))
       (responses : List (Nat × FetchKeyResponse))
       (M : List (List Nat × List (Nat × Nat)))
       (objs : List EncryptedObject) (eo : EncryptedObject)
       (keysForId : List (Nat × Nat)),
       processResponses prims encSecret pkMap responses [] [] = .ok M →
       eo ∈ objs →
       alookup M (prims.createFullId eo.packageId eo.id) = some keysForId →
       (∀ p ∈ eo.services, (alookup keysForId p.1).isSome ∧ (alookup pkMap p.1).isSome) →
       (eo.services.map Prod.fst).toFinset.card < eo.threshold →
       decryptOneObject prims pkMap M eo =
         .error (.insufficientKeysForObject
           (eo.services.map Prod.fst).toFinset.card eo.threshold) ∧
       ∃ e, seal_decrypt_all_objects prims encSecret responses objs pkMap = .error e) := by
  refine ⟨?_, ?_, ?_⟩
  · intro prims encSecret pkMap responses M objs eo hM hmem hnone
    have h1 : decryptOneObject prims pkMap M eo =
        .error (.noKeysForObject (prims.createFullId eo.packageId eo.id)) := by
      simp [decryptOneObject, hnone]
    exact ⟨h1, seal_error_of_step2 prims encSecret responses objs pkMap M
      (List.ne_nil_of_mem hmem) hM
      (mapObjects_error_of_mem prims pkMap M objs eo _ hmem h1)⟩
  · intro prims encSecret pkMap responses M objs eo keysForId hM hmem hsome hmiss
    obtain ⟨e0, hc⟩ := collectShares_missing pkMap keysForId eo.services [] [] hmiss
    have h1 : decryptOneObject prims pkMap M eo = .error e0 := by
      simp [decryptOneObject, hsome, hc]
    exact ⟨⟨e0, h1⟩, seal_error_of_step2 prims encSecret responses objs pkMap M
      (List.ne_nil_of_mem hmem) hM
      (mapObjects_error_of_mem prims pkMap M objs eo e0 hmem h1)⟩
  · intro prims encSecret pkMap responses M objs eo keysForId hM hmem hsome hall hlt
    have h1 := decryptOneObject_insufficient prims pkMap M eo keysForId hsome hall hlt
    exact ⟨h1, seal_error_of_step2 prims encSecret responses objs pkMap M
      (List.ne_nil_of_mem hmem) hM
      (mapObjects_error_of_mem prims pkMap M objs eo _ hmem h1)⟩

/-- Witness for C3 at concrete inputs: with no accumulated shares the
no-keys error fires; with shares from server 10 only, the envelope eo1
referencing servers 10, 11 and 12 fails; the envelope eoDup referencing
server 10 twice with threshold two has one distinct matched share and fails
with the insufficient-keys-for-object error. -/
theorem C3_combination_fatal_conditions_witness :
    (decryptOneObject prims0 pkMap0 [] eo1 =
       .error (.noKeysForObject (prims0.createFullId eo1.packageId eo1.id)) ∧
     ∃ e, seal_decrypt_all_objects prims0 0 [] [eo1] pkMap0 = .error e) ∧
    ((∃ e0, decryptOneObject prims0 pkMap0 [([1, 9], [(10, 5)])] eo1 = .error e0) ∧
     ∃ e, seal_decrypt_all_objects prims0 0 [(10, ⟨[dk1 5]⟩)] [eo1] pkMap0 = .error e) ∧
    (decryptOneObject prims0 pkMap0 [([1, 9], [(10, 5)])] eoDup =
       .error (.insufficientKeysForObject
         (eoDup.services.map Prod.fst).toFinset.card eoDup.threshold) ∧
     ∃ e, seal_decrypt_all_objects prims0 0 [(10, ⟨[dk1 5]⟩)] [eoDup] pkMap0 = .error e) :=
  ⟨C3_combination_fatal_conditions.1 prims0 0 pkMap0 [] [] [eo1] eo1 rfl
      (by decide) (by decide),
   C3_combination_fatal_conditions.2.1 prims0 0 pkMap0 [(10, ⟨[dk1 5]⟩)]
      [([1, 9], [(10, 5)])] [eo1] eo1 [(10, 5)] (by decide) (by decide) (by decide)
      ⟨11, by decide, by decide⟩,
   C3_combination_fatal_conditions.2.2 prims0 0 pkMap0 [(10, ⟨[dk1 5]⟩)]
      [([1, 9], [(10, 5)])] [eoDup] eoDup [(10, 5)] (by decide) (by decide) (by decide)
      (by decide) (by decide)⟩

/-- C4 counterexample: with an empty list of target encrypted objects the
combination routine returns success on a response list naming server 10
twice, so a duplicated server id in the responses is not always rejected. -/
theorem C4_counterexample_empty_objects :
    ¬ (respDup.map Prod.fst).Nodup ∧
    seal_decrypt_all_objects prims0 0 respDup [] pkMap0 = .ok [] := by
  refine ⟨by decide, rfl⟩

/-- C4 amended: whenever the list of target encrypted objects is non-empty,
a response list in which the same server id appears twice makes the whole
operation fail, independently of the validity of any carried share; with an
empty target list the code returns success without inspecting the
responses. -/
theorem C4_duplicate_server_rejected (prims : CryptoPrims) (encSecret : Nat)
    (responses : List (Nat × FetchKeyResponse)) (objs : List EncryptedObject)
    (pkMap : List (Nat × Nat)) (hne : objs ≠ [])
    (hdup : ¬ (responses.map Prod.fst).Nodup) :
    ∃ e, seal_decrypt_all_objects prims encSecret responses objs pkMap = .error e := by
  cases objs with
  | nil => exact absurd rfl hne
  | cons o rest =>
      cases responses with
      | nil => exact absurd List.nodup_nil hdup
      | cons r rs =>
          obtain ⟨e, he⟩ := processResponses_dup prims encSecret pkMap (r :: rs) [] []
            (Or.inr hdup)
          exact ⟨e, by simp [seal_decrypt_all_objects, he]⟩

/-- Witness for C4 amended: the duplicated response list of the
counterexample is rejected once the target list is non-empty. -/
theorem C4_duplicate_server_rejected_witness :
    ∃ e, seal_decrypt_all_objects prims0 0 respDup [eo1] pkMap0 = .error e :=
  C4_duplicate_server_rejected prims0 0 respDup [eo1] pkMap0 (by decide) (by decide)

/-- C5: SessionKey::new fails with the invalid-TTL error exactly when the
requested TTL lies outside the inclusive range of 1 to 30 minutes, and for
such a TTL the error comes with an empty effect trace: no signer query, no
keypair generation and no signing request has been issued, hence no network
activity has taken place. -/
theorem C5_invalid_ttl_rejected_first (env : SessionEnv) (packageId ttlMin : Nat) :
    ((ttlMin < 1 ∨ 30 < ttlMin) ↔
       (SessionKey_new env packageId ttlMin).1 = .error (.invalidTTLMin 1 30 ttlMin)) ∧
    ((ttlMin < 1 ∨ 30 < ttlMin) → (SessionKey_new env packageId ttlMin).2 = []) := by
  by_cases hc : ttlMin < 1 ∨ 30 < ttlMin
  · refine ⟨⟨fun _ => ?_, fun _ => hc⟩, fun _ => ?_⟩
    · unfold SessionKey_new
      rw [if_pos hc]
    · unfold SessionKey_new
      rw [if_pos hc]
  · refine ⟨⟨fun h => absurd h hc, fun h => ?_⟩, fun h => absurd h hc⟩
    exfalso
    unfold SessionKey_new at h
    rw [if_neg hc] at h
    split at h
    · simp at h
    · split at h
      · simp at h
      · split at h
        · simp at h
        · split at h
          · simp at h
          · simp at h

/-- Witness for C5 at the TTL values of the spec scenario: 0 and 31 minutes
are rejected with the invalid-TTL error and an empty effect trace. -/
theorem C5_invalid_ttl_rejected_first_witness :
    (((0 : Nat) < 1 ∨ 30 < (0 : Nat)) ↔
       (SessionKey_new sessionEnv0 3 0).1 = .error (.invalidTTLMin 1 30 0)) ∧
    (((0 : Nat) < 1 ∨ 30 < (0 : Nat)) → (SessionKey_new sessionEnv0 3 0).2 = []) ∧
    (((31 : Nat) < 1 ∨ 30 < (31 : Nat)) ↔
       (SessionKey_new sessionEnv0 3 31).1 = .error (.invalidTTLMin 1 30 31)) :=
  ⟨(C5_invalid_ttl_rejected_first sessionEnv0 3 0).1,
   (C5_invalid_ttl_rejected_first sessionEnv0 3 0).2,
   (C5_invalid_ttl_rejected_first sessionEnv0 3 31).1⟩

/-- C6 counterexample: a record public key of valid hex and correct 96-byte
length that the group-element decoder rejects makes decode_public_key fail
with the propagated fastcrypto error, not with the InvalidPublicKey error
the claim prescribes for invalid group encodings. -/
theorem C6_counterexample_group_decode :
    decode_public_key g2none infoA = .error .invalidInput ∧
    ∀ pk r, decode_public_key g2none infoA ≠ .error (.invalidPublicKey pk r) := by
  refine ⟨by decide, ?_⟩
  intro pk r h
  have h0 : decode_public_key g2none infoA = .error .invalidInput := by decide
  rw [h0] at h
  simp at h

/-- C6 amended: a record public key of wrong byte length yields
InvalidPublicKey carrying the offending key and the reason Invalid length.;
a correct-length byte string rejected by the group-element decoder yields
the propagated fastcrypto error instead; and either failure is fatal to the
whole resolution, no partial key map being returned. -/
theorem C6_decode_failure_modes :
    (∀ (g2 : List Nat → Option Nat) (info : KeyServerInfo) (bytes : List Nat),
       hex_decode info.publicKey = some bytes → bytes.length ≠ 96 →
       decode_public_key g2 info =
         .error (.invalidPublicKey info.publicKey "Invalid length.")) ∧
    (∀ (g2 : List Nat → Option Nat) (info : KeyServerInfo) (bytes : List Nat),
       hex_decode info.publicKey = some bytes → bytes.length = 96 →
       g2 bytes = none →
       decode_public_key g2 info = .error .invalidInput) ∧
    (∀ (env : ClientEnv) (infos : List KeyServerInfo) (info : KeyServerInfo),
       info ∈ infos →
       (∃ e0, decode_public_key env.g2Decode info = .error e0) →
       ∃ e, buildPkMap env infos = .error e) := by
  refine ⟨?_, ?_, ?_⟩
  · intro g2 info bytes hhex hlen
    simp [decode_public_key, hhex, hlen]
  · intro g2 info bytes hhex hlen hg2
    simp [decode_public_key, hhex, hlen, hg2]
  · intro env infos
    induction infos with
    | nil =>
        intro info h
        simp at h
    | cons a rest ih =>
        intro info hmem hfail
        rcases List.mem_cons.mp hmem with h1 | h1
        · subst h1
          obtain ⟨e0, he0⟩ := hfail
          exact ⟨e0, by simp [buildPkMap, he0]⟩
        · cases ha : decode_public_key env.g2Decode a with
          | error e => exact ⟨e, by simp [buildPkMap, ha]⟩
          | ok pk =>
              obtain ⟨e, he⟩ := ih info h1 hfail
              exact ⟨e, by simp [buildPkMap, ha, he]⟩

/-- Witness for C6 amended: a one-byte key yields the invalid-length error,
the 96-zero-byte key yields the propagated decoder error, and a resolution
over a record with the rejected key fails as a whole. -/
theorem C6_decode_failure_modes_witness :
    decode_public_key g2none infoShortPk =
      .error (.invalidPublicKey infoShortPk.publicKey "Invalid length.") ∧
    decode_public_key g2none infoA = .error .invalidInput ∧
    ∃ e, buildPkMap { envC1 with g2Decode := g2none } [infoA] = .error e :=
  ⟨C6_decode_failure_modes.1 g2none infoShortPk [0] (by decide) (by decide),
   C6_decode_failure_modes.2.1 g2none infoA (List.replicate 96 0) (by decide)
      (by decide) rfl,
   C6_decode_failure_modes.2.2 { envC1 with g2Decode := g2none } [infoA] infoA
      (by decide) ⟨.invalidInput, by decide⟩⟩

/-- C7: the message signed at session creation is the canonical string built
from the package id, the TTL, the UTC calendar rendering of the creation
time truncated to whole seconds, and the session verification key; the
milliseconds of the creation time are discarded by the truncation. -/
theorem C7_signed_message_canonical :
    (∀ (render : Nat → Option String) (pkg vk : String) (t ttl : Nat) (ts : String),
       render (t / 1000) = some ts →
       signed_message render pkg vk t ttl =
         some ("Accessing keys of package " ++ pkg ++ " for " ++ toString ttl
           ++ " mins from " ++ ts ++ ", session key " ++ vk)) ∧
    (∀ (render : Nat → Option String) (pkg vk : String) (s ms ttl : Nat),
       ms < 1000 →
       signed_message render pkg vk (1000 * s + ms) ttl =
         signed_message render pkg vk (1000 * s) ttl) := by
  constructor
  · intro render pkg vk t ttl ts h
    simp [signed_message, h]
  · intro render pkg vk s ms ttl h
    have hdiv : (1000 * s + ms) / 1000 = s := by omega
    have hdiv2 : 1000 * s / 1000 = s := by omega
    simp only [signed_message, hdiv, hdiv2]

/-- Witness for C7 at a concrete creation time: the rendered message for
second 1234 and the equality of the messages for 7999 and 7000
milliseconds. -/
theorem C7_signed_message_canonical_witness :
    signed_message (fun s => some (toString s)) "0x1" "VK" 1234567 5 =
      some ("Accessing keys of package " ++ "0x1" ++ " for " ++ toString (5 : Nat)
        ++ " mins from " ++ "1234" ++ ", session key " ++ "VK") ∧
    signed_message (fun s => some (toString s)) "0x1" "VK" (1000 * 7 + 999) 5 =
      signed_message (fun s => some (toString s)) "0x1" "VK" (1000 * 7) 5 :=
  ⟨C7_signed_message_canonical.1 (fun s => some (toString s)) "0x1" "VK" 1234567 5
      "1234" (by decide),
   C7_signed_message_canonical.2 (fun s => some (toString s)) "0x1" "VK" 7 999 5
      (by decide)⟩

/-- C8: when the multi-object combination succeeds on a non-empty input
list, the output list has the length of the input list and the i-th
plaintext is exactly the decryption of the i-th input envelope under the
mapping accumulated from the responses: outputs are in input order. -/
theorem C8_outputs_in_input_order (prims : CryptoPrims) (encSecret : Nat)
    (responses : List (Nat × FetchKeyResponse)) (objs : List EncryptedObject)
    (pkMap : List (Nat × Nat)) (outs : List (List Nat)) (hne : objs ≠ [])
    (h : seal_decrypt_all_objects prims encSecret responses objs pkMap = .ok outs) :
    outs.length = objs.length ∧
    ∃ M, processResponses prims encSecret pkMap responses [] [] = .ok M ∧
      ∀ (i : Nat) (h1 : i < objs.length) (h2 : i < outs.length),
        decryptOneObject prims pkMap M (objs.get ⟨i, h1⟩) = .ok (outs.get ⟨i, h2⟩) := by
  obtain ⟨M, hM, hmap⟩ := seal_ok_inv prims encSecret responses objs pkMap outs hne h
  obtain ⟨hlen, hidx⟩ := mapObjects_ok_spec prims pkMap M objs outs hmap
  exact ⟨hlen, M, hM, hidx⟩

/-- Witness for C8: two copies of the fixture envelope decrypted together
with full responses yield two plaintexts in input order. -/
theorem C8_outputs_in_input_order_witness :
    ([[5, 6, 7], [5, 6, 7]] : List (List Nat)).length =
      ([eo1, eo1] : List EncryptedObject).length ∧
    ∃ M, processResponses prims0 0 pkMap0 resp3of3 [] [] = .ok M ∧
      ∀ (i : Nat) (h1 : i < ([eo1, eo1] : List EncryptedObject).length)
        (h2 : i < ([[5, 6, 7], [5, 6, 7]] : List (List Nat)).length),
        decryptOneObject prims0 pkMap0 M ([eo1, eo1].get ⟨i, h1⟩) =
          .ok ([[5, 6, 7], [5, 6, 7]].get ⟨i, h2⟩) :=
  C8_outputs_in_input_order prims0 0 resp3of3 [eo1, eo1] pkMap0
    [[5, 6, 7], [5, 6, 7]] (by decide) (by decide)

/-- C9: the server resolution and fetch round of the multi-object decrypt
operation is a function of the services list and threshold of the first
envelope alone: two first envelopes agreeing on those two fields produce
identical fetch phases, whatever their other fields and whatever the later
envelopes contain, which play no role in this phase by construction. -/
theorem C9_fetch_round_from_first_envelope (env : ClientEnv)
    (o1 o2 : EncryptedObject) (hs : o1.services = o2.services)
    (ht : o1.threshold = o2.threshold) :
    fetchRound env o1 = fetchRound env o2 := by
  unfold fetchRound
  rw [hs, ht]

/-- Witness for C9: the fetch round of the fixture envelope equals the fetch
round of an envelope differing in every field except services and
threshold. -/
theorem C9_fetch_round_from_first_envelope_witness :
    fetchRound envC1 eo1 = fetchRound envC1
      { version := 9, packageId := 77, id := [0], services := [(10, 0), (11, 1), (12, 2)],
        threshold := 2, encryptedShares := 3, ciphertext := 4 } :=
  C9_fetch_round_from_first_envelope envC1 eo1
    { version := 9, packageId := 77, id := [0], services := [(10, 0), (11, 1), (12, 2)],
      threshold := 2, encryptedShares := 3, ciphertext := 4 } rfl rfl

/-- C10: the multi-object decrypt operation on an empty input list returns
success with an empty result list for every behavior of the collaborators;
since the result is the same even in environments whose every decode,
directory lookup, session-request construction and network call fails, none
of those is consulted.  The crypto-level combination routine likewise
short-circuits on an empty target list before the response checks. -/
theorem C10_empty_input_short_circuits :
    (∀ (env : ClientEnv), decrypt_multiple_objects_bytes env [] = .ok []) ∧
    (∀ (prims : CryptoPrims) (encSecret : Nat)
       (responses : List (Nat × FetchKeyResponse)) (pkMap : List (Nat × Nat)),
       seal_decrypt_all_objects prims encSecret responses [] pkMap = .ok []) :=
  ⟨fun _ => rfl, fun _ _ _ _ => rfl⟩

end Seal
